import Mathlib

/-
Verification of the RTC repository's signaling and negotiation logic.

The repository contains three near-duplicate browser clients:
  * src/static/js/main.js     (referred to below as the "main" variant)
  * src/static/js/mai.js      (the "mai" variant)
  * src/unnamed/part_000      (the "p000" variant, a revision of main.js)

Each client keeps a map from remote participant id to an RTCPeerConnection,
and reacts to signaling messages (connected / user-joined / offer / answer /
ice-candidate / user-left) from a room-scoped websocket relay.

Shallow embedding conventions:
  * Participant ids, roll numbers and usernames are opaque in the source
    (only compared for equality), so they are modelled as Nat.
  * JavaScript objects used as maps (peerConnections, remoteParticipants,
    peers, participants) are modelled as association lists in insertion
    order: property assignment is upsert, delete is aerase, lookup is
    alookup.  This matches JS object key semantics for string keys.
  * The RTCPeerConnection collaborator is modelled by its signaling-state
    machine (stable / have-local-offer / have-remote-offer / closed) with
    the rules the browsers implement: a remote offer is only applicable in
    stable or have-remote-offer, a remote answer only in have-local-offer;
    anything else raises InvalidStateError.  The handlers in the source
    wrap every such call in try/catch, which the embedding reflects by
    total functions whose failed transport calls produce a log entry and
    leave the state unchanged (so "does not crash" is totality by
    construction, with the error absorbed into the log).
  * DOM side effects (closing a connection, removing a video tile or a
    roster row) are recorded as an explicit event list; purely cosmetic
    rendering is out of scope per the specification.
-/

namespace RTC

/-- Opaque participant identifier (compared only for equality in the source). -/
abbrev Pid := Nat

/-- Opaque ICE/reachability candidate payload. -/
abbrev Cand := Nat

/-- Participant info as carried by user-joined / connected messages:
username and roll number, both opaque here. -/
structure Info where
  username : Nat
  roll : Nat
deriving DecidableEq, Repr

/-- Opaque session description: the source only distinguishes offers from
answers (RTCSessionDescription type field). -/
inductive Desc where
  | offerD : Desc
  | answerD : Desc
deriving DecidableEq, Repr

/-- Outbound signaling messages produced by the handlers (sendMessage calls). -/
inductive Msg where
  | offer : Pid → Desc → Msg
  | answer : Pid → Desc → Msg
  | ice : Pid → Cand → Msg
deriving DecidableEq, Repr

/-- Signaling state of the RTCPeerConnection collaborator. -/
inductive SigState where
  | stable : SigState
  | haveLocalOffer : SigState
  | haveRemoteOffer : SigState
  | closedS : SigState
deriving DecidableEq, Repr

/-- Transport-level failure (InvalidStateError and kin); always caught by
the handlers in the source. -/
inductive PcErr where
  | invalidState : PcErr
deriving DecidableEq, Repr

/-- Model of one RTCPeerConnection: signaling state plus which descriptions
have been applied.  main.js stores no candidate buffer on the connection
(there is no such field in that variant), which is what this type records. -/
structure PC where
  sig : SigState
  localDesc : Option Desc
  remoteDesc : Option Desc
deriving DecidableEq, Repr

/-- A freshly constructed RTCPeerConnection. -/
def PC.new : PC :=
  { sig := SigState.stable, localDesc := none, remoteDesc := none }

/-- pc.createOffer() followed by pc.setLocalDescription(offer): permitted in
stable and have-local-offer, yielding have-local-offer. -/
def PC.makeOffer (pc : PC) : Except PcErr (PC × Desc) :=
  match pc.sig with
  | SigState.stable =>
      Except.ok ({ pc with sig := SigState.haveLocalOffer, localDesc := some Desc.offerD },
        Desc.offerD)
  | SigState.haveLocalOffer =>
      Except.ok ({ pc with sig := SigState.haveLocalOffer, localDesc := some Desc.offerD },
        Desc.offerD)
  | _ => Except.error PcErr.invalidState

/-- pc.setRemoteDescription(offer): permitted in stable and
have-remote-offer; in have-local-offer (a pending local offer: glare) the
browser raises InvalidStateError. -/
def PC.applyRemoteOffer (pc : PC) (d : Desc) : Except PcErr PC :=
  match pc.sig with
  | SigState.stable =>
      Except.ok { pc with sig := SigState.haveRemoteOffer, remoteDesc := some d }
  | SigState.haveRemoteOffer =>
      Except.ok { pc with sig := SigState.haveRemoteOffer, remoteDesc := some d }
  | _ => Except.error PcErr.invalidState

/-- pc.setRemoteDescription(answer): permitted only in have-local-offer. -/
def PC.applyRemoteAnswer (pc : PC) (d : Desc) : Except PcErr PC :=
  match pc.sig with
  | SigState.haveLocalOffer =>
      Except.ok { pc with sig := SigState.stable, remoteDesc := some d }
  | _ => Except.error PcErr.invalidState

/-- pc.createAnswer() followed by pc.setLocalDescription(answer): permitted
only in have-remote-offer, yielding stable. -/
def PC.makeAnswer (pc : PC) : Except PcErr (PC × Desc) :=
  match pc.sig with
  | SigState.haveRemoteOffer =>
      Except.ok ({ pc with sig := SigState.stable, localDesc := some Desc.answerD },
        Desc.answerD)
  | _ => Except.error PcErr.invalidState

/-- pc.close(): valid from every state. -/
def PC.closePc (pc : PC) : PC :=
  { pc with sig := SigState.closedS }

/-- A connection has completed the offer/answer exchange once both a local
and a remote description are in place. -/
def PC.connectedB (pc : PC) : Bool :=
  pc.localDesc.isSome && pc.remoteDesc.isSome

/- Association lists standing for JavaScript objects used as maps. -/

/-- Lookup of a key (first occurrence), as obj[k] does. -/
def alookup {α : Type} (id : Pid) : List (Pid × α) → Option α
  | [] => none
  | e :: t => if e.1 = id then some e.2 else alookup id t

/-- Property assignment obj[k] = v: replace in place if present, else append. -/
def upsert {α : Type} (id : Pid) (v : α) : List (Pid × α) → List (Pid × α)
  | [] => [(id, v)]
  | e :: t => if e.1 = id then (id, v) :: t else e :: upsert id v t

/-- delete obj[k]: removes every binding of the key. -/
def aerase {α : Type} (id : Pid) : List (Pid × α) → List (Pid × α)
  | [] => []
  | e :: t => if e.1 = id then aerase id t else e :: aerase id t

/-- Overwrite the value bound to a key, keeping the key set and order. -/
def aset {α : Type} (id : Pid) (v : α) (l : List (Pid × α)) : List (Pid × α) :=
  l.map fun e => if e.1 = id then (id, v) else e

/-- Membership in a plain list of ids (DOM element existence checks). -/
def hasId (id : Pid) : List Pid → Bool
  | [] => false
  | x :: t => if x = id then true else hasId id t

/-- Remove every occurrence of an id from a plain list. -/
def removeAll (id : Pid) : List Pid → List Pid
  | [] => []
  | x :: t => if x = id then removeAll id t else x :: removeAll id t

/- The main.js client. -/

/-- Console.error entries emitted by the main.js handlers; each carries the
peer id and the failing operation, nothing more is observable. -/
inductive LogEntry where
  | offerErr : Pid → LogEntry
  | answerErr : Pid → LogEntry
  | iceErr : Pid → LogEntry
deriving DecidableEq, Repr

/-- State of the main.js client: its own id (ws.participantId), the
peerConnections map, the remoteParticipants map, and the set of remote
video tiles currently in the DOM. -/
structure Client where
  selfId : Pid
  peerConnections : List (Pid × PC)
  remoteParticipants : List (Pid × Info)
  videos : List Pid
deriving DecidableEq, Repr

/-- Result of running one main.js handler: the new client state, the
signaling messages sent, the ICE candidates actually handed to
addIceCandidate, and the console.error log. -/
structure HRes where
  st : Client
  out : List Msg
  applied : List Cand
  logs : List LogEntry
deriving DecidableEq, Repr

/-- main.js createPeerConnection (lines 126-153): if a connection for the id
already exists it is returned unchanged and nothing else happens; otherwise
a fresh connection is created, local tracks attached, and stored.  The p000
variant (part_000 lines 147-194) is identical up to logging. -/
def createPeerConnection (id : Pid) (c : Client) : Client × PC :=
  match alookup id c.peerConnections with
  | some pc => (c, pc)
  | none =>
      ({ c with peerConnections := c.peerConnections ++ [(id, PC.new)] }, PC.new)

/-- main.js createOffer (lines 155-164): fetch-or-create the connection,
create and set a local offer, send it; on failure log and keep the session
as it was (the connection, if freshly created, stays stored). -/
def mainCreateOffer (id : Pid) (c : Client) : HRes :=
  let p := createPeerConnection id c
  match p.2.makeOffer with
  | Except.ok r =>
      { st := { p.1 with peerConnections := aset id r.1 p.1.peerConnections },
        out := [Msg.offer id r.2], applied := [], logs := [] }
  | Except.error _ =>
      { st := p.1, out := [], applied := [], logs := [LogEntry.offerErr id] }

/-- main.js handleOffer (lines 166-176): fetch-or-create the connection, set
the remote offer, create and send an answer; any transport failure is
caught and logged, with no tie-break and no discarding of a pending local
offer.  The p000 variant (part_000 lines 219-239) is identical up to
logging. -/
def handleOffer (d : Desc) (fromId : Pid) (c : Client) : HRes :=
  let p := createPeerConnection fromId c
  match p.2.applyRemoteOffer d with
  | Except.error _ =>
      { st := p.1, out := [], applied := [], logs := [LogEntry.offerErr fromId] }
  | Except.ok pc1 =>
      match pc1.makeAnswer with
      | Except.error _ =>
          { st := { p.1 with peerConnections := aset fromId pc1 p.1.peerConnections },
            out := [], applied := [], logs := [LogEntry.offerErr fromId] }
      | Except.ok r =>
          { st := { p.1 with peerConnections := aset fromId r.1 p.1.peerConnections },
            out := [Msg.answer fromId r.2], applied := [], logs := [] }

/-- main.js handleAnswer (lines 178-187): if no connection exists for the
sender, nothing at all happens (the source has no else branch, hence no log
entry); otherwise the remote answer is applied, and a transport failure is
caught and logged leaving the connection unchanged. -/
def handleAnswer (d : Desc) (fromId : Pid) (c : Client) : HRes :=
  match alookup fromId c.peerConnections with
  | none => { st := c, out := [], applied := [], logs := [] }
  | some pc =>
      match pc.applyRemoteAnswer d with
      | Except.ok pc1 =>
          { st := { c with peerConnections := aset fromId pc1 c.peerConnections },
            out := [], applied := [], logs := [] }
      | Except.error _ =>
          { st := c, out := [], applied := [], logs := [LogEntry.answerErr fromId] }

/-- main.js handleIceCandidate (lines 189-198): the candidate is applied only
when a connection exists, its remote description is set, and the candidate
is non-null; in every other case the message is discarded with no buffering
(the main.js client has no pending-candidate storage of any kind). -/
def handleIceCandidate (cand : Option Cand) (fromId : Pid) (c : Client) : HRes :=
  match alookup fromId c.peerConnections with
  | none => { st := c, out := [], applied := [], logs := [] }
  | some pc =>
      if pc.remoteDesc.isSome then
        match cand with
        | some cd => { st := c, out := [], applied := [cd], logs := [] }
        | none => { st := c, out := [], applied := [], logs := [] }
      else
        { st := c, out := [], applied := [], logs := [] }

/-- main.js user-joined case (lines 78-88): a join event for self is ignored
entirely; otherwise the participant is recorded and an offer is created
toward the joiner.  (The list-UI insertion is display-only.) -/
def handleUserJoined (id : Pid) (info : Info) (c : Client) : HRes :=
  if id = c.selfId then
    { st := c, out := [], applied := [], logs := [] }
  else
    mainCreateOffer id { c with remoteParticipants := upsert id info c.remoteParticipants }

/-- main.js updateParticipantsList (lines 392-406), run on the initial
connected roster snapshot: every listed participant other than self is
recorded, and for each one with no existing peer connection an offer is
created immediately. -/
def updateParticipantsList (snap : List (Pid × Info)) (c : Client) : HRes :=
  snap.foldl
    (fun acc e =>
      if e.1 = acc.st.selfId then acc
      else
        let c1 := { acc.st with remoteParticipants := upsert e.1 e.2 acc.st.remoteParticipants }
        if (alookup e.1 c1.peerConnections).isSome then { acc with st := c1 }
        else
          let r := mainCreateOffer e.1 c1
          { st := r.st, out := acc.out ++ r.out, applied := acc.applied ++ r.applied,
            logs := acc.logs ++ r.logs })
    { st := c, out := [], applied := [], logs := [] }

/-- One snapshot entry of p000 updateParticipantsList: record the
participant when it is not self; nothing else. -/
def p000step (acc : HRes) (e : Pid × Info) : HRes :=
  if e.1 = acc.st.selfId then acc
  else
    { acc with st :=
        { acc.st with remoteParticipants := upsert e.1 e.2 acc.st.remoteParticipants } }

/-- p000 updateParticipantsList (part_000 lines 524-535): every listed
participant other than self is recorded, and no offer is created here; the
source comment reads: do not automatically create offers here, wait for the
user-joined message. -/
def p000updateParticipantsList (snap : List (Pid × Info)) (c : Client) : HRes :=
  snap.foldl p000step { st := c, out := [], applied := [], logs := [] }

/- Concrete fixtures used by the evaluation theorems. -/

/-- Info record for participant 1. -/
def infoA : Info := { username := 1, roll := 101 }

/-- Info record for participant 2. -/
def infoB : Info := { username := 2, roll := 102 }

/-- Client of participant 1 just after entering an empty room. -/
def clientA0 : Client :=
  { selfId := 1, peerConnections := [], remoteParticipants := [], videos := [] }

/-- Client of participant 2 just after entering a room. -/
def clientB0 : Client :=
  { selfId := 2, peerConnections := [], remoteParticipants := [], videos := [] }

/-- C1 — In main.js, when participant 2 joins a room already containing
participant 1, BOTH sides originate an offer: participant 1 offers from the
user-joined handler, and participant 2 offers from the connected-snapshot
handler (updateParticipantsList), because the snapshot already lists
participant 1 and no peer connection exists yet.  This evaluates the code
at that failing input and exhibits the double offer that the claim's
exactly-one-offerer property forbids. -/
theorem c1_double_offer_eval :
    (handleUserJoined 2 infoB clientA0).out = [Msg.offer 2 Desc.offerD] ∧
    (updateParticipantsList [(1, infoA), (2, infoB)] clientB0).out
      = [Msg.offer 1 Desc.offerD] := by
  constructor <;> rfl

/-- Client state of participant 1 right after sending an offer to peer 9:
the connection for 9 exists, with a local offer pending and no remote
description yet. -/
def c2st0 : Client := (mainCreateOffer 9 clientA0).st

/-- C2 — In main.js a reachability candidate that arrives before the remote
description is set is discarded outright: handleIceCandidate applies
nothing, buffers nothing (the state is bit-for-bit unchanged, and the
Client type of that variant has no pending-candidate storage at all), and
when the answer later sets the remote description no candidate is applied
either.  Candidate 7 is therefore lost, never applied once. -/
theorem c2_candidate_dropped_eval :
    (handleIceCandidate (some 7) 9 c2st0).applied = [] ∧
    (handleIceCandidate (some 7) 9 c2st0).st = c2st0 ∧
    (handleAnswer Desc.answerD 9 (handleIceCandidate (some 7) 9 c2st0).st).applied = [] ∧
    (alookup 9 (handleAnswer Desc.answerD 9 c2st0).st.peerConnections).map PC.remoteDesc
      = some (some Desc.answerD) := by
  refine ⟨rfl, rfl, rfl, rfl⟩

/-- Participant 1 after offering to participant 2 (glare setup, side A). -/
def glareA1 : HRes := mainCreateOffer 2 clientA0

/-- Participant 2 after offering to participant 1 (glare setup, side B). -/
def glareB1 : HRes := mainCreateOffer 1 clientB0

/-- Side A then receives side B's offer while its own offer is pending. -/
def glareA2 : HRes := handleOffer Desc.offerD 2 glareA1.st

/-- Side B then receives side A's offer while its own offer is pending. -/
def glareB2 : HRes := handleOffer Desc.offerD 1 glareB1.st

/-- Number of completed (both descriptions set) connections of a client. -/
def connCount (c : Client) : Nat :=
  (c.peerConnections.filter fun e => e.2.connectedB).length

/-- C3 — main.js has no glare tie-break: when both sides offer to each other
simultaneously and then each receives the other's offer, handleOffer on
each side reuses the pending connection, setRemoteDescription(offer) fails
in the have-local-offer state, the failure is caught and logged, the
pending local offer is NOT discarded (the state is unchanged), and no
answer is ever emitted.  With no answers in flight the pair converges to
zero completed connections, not the exactly-one the claim requires. -/
theorem c3_glare_eval :
    glareA2.out = [] ∧ glareB2.out = [] ∧
    glareA2.logs = [LogEntry.offerErr 2] ∧ glareB2.logs = [LogEntry.offerErr 1] ∧
    glareA2.st = glareA1.st ∧ glareB2.st = glareB1.st ∧
    connCount glareA2.st = 0 ∧ connCount glareB2.st = 0 := by
  refine ⟨rfl, rfl, rfl, rfl, rfl, rfl, rfl, rfl⟩

/-- A p000 snapshot step only touches the remoteParticipants map. -/
theorem p000step_fields (acc : HRes) (e : Pid × Info) :
    (p000step acc e).out = acc.out ∧ (p000step acc e).applied = acc.applied ∧
    (p000step acc e).logs = acc.logs ∧
    (p000step acc e).st.peerConnections = acc.st.peerConnections ∧
    (p000step acc e).st.selfId = acc.st.selfId ∧
    (p000step acc e).st.videos = acc.st.videos := by
  unfold p000step
  split <;> simp

/-- Folding p000 snapshot steps preserves everything but the roster. -/
theorem p000fold_fields (snap : List (Pid × Info)) (acc : HRes) :
    (snap.foldl p000step acc).out = acc.out ∧
    (snap.foldl p000step acc).applied = acc.applied ∧
    (snap.foldl p000step acc).logs = acc.logs ∧
    (snap.foldl p000step acc).st.peerConnections = acc.st.peerConnections := by
  induction snap generalizing acc with
  | nil => simp
  | cons e t ih =>
      have hstep := p000step_fields acc e
      have hrest := ih (p000step acc e)
      simp only [List.foldl]
      exact ⟨hrest.1.trans hstep.1, hrest.2.1.trans hstep.2.1,
        hrest.2.2.1.trans hstep.2.2.1, hrest.2.2.2.trans hstep.2.2.2.1⟩

/-- C4 — The p000 variant's connected-snapshot handler creates no peer
connection and originates no message for ANY snapshot and starting state
(negotiation there starts only on a later user-joined event), whereas the
main.js variant's snapshot handler, evaluated at a concrete room-entry
snapshot listing participant 1, immediately creates a peer connection for
participant 1 and sends it an offer. -/
theorem c4_snapshot_handlers (snap : List (Pid × Info)) (c : Client) :
    (p000updateParticipantsList snap c).out = [] ∧
    (p000updateParticipantsList snap c).st.peerConnections = c.peerConnections ∧
    (updateParticipantsList [(1, infoA), (2, infoB)] clientB0).out
      = [Msg.offer 1 Desc.offerD] ∧
    (alookup 1 (updateParticipantsList [(1, infoA), (2, infoB)]
      clientB0).st.peerConnections).isSome = true := by
  have h := p000fold_fields snap { st := c, out := [], applied := [], logs := [] }
  exact ⟨h.1, h.2.2.2, rfl, rfl⟩

/-- An outgoing video track: the camera, or one of the successively acquired
screen captures (numbered, since getDisplayMedia yields a fresh track each
time). -/
inductive Track where
  | camera : Track
  | screen : Nat → Track
deriving DecidableEq, Repr

/-- main.js replaceTrack (lines 294-301): for every peer connection, the
sender whose current track is oldTrack gets newTrack; senders holding any
other track are left alone.  Each list element is the video-sender track of
one peer connection. -/
def replaceTrack (newTrack oldTrack : Track) (pcs : List Track) : List Track :=
  pcs.map fun t => if t = oldTrack then newTrack else t

/-- mai.js replaceTrackForAllPeers (mai.js lines 236-243): for every peer,
the sender whose track KIND matches the new track's kind (here: the video
sender, modeled as the optional component) receives the new track; a peer
without a video sender is skipped. -/
def replaceTrackForAllPeers (t : Track) (ps : List (Pid × Option Track)) :
    List (Pid × Option Track) :=
  ps.map fun p => (p.1, p.2.map fun _ => t)

/-- Media-subsystem state of the main.js client: the video-sender track of
each peer connection (in creation order), the current screen share if any
(isScreenSharing plus the screen track shown in localVideo), and a counter
generating fresh screen captures.  localStream's video track is the camera
throughout, as in the source (localStream is never reassigned). -/
structure MediaState where
  pcs : List Track
  sharing : Option Nat
  nextScreen : Nat
deriving DecidableEq, Repr

/-- Media-subsystem events: a peer connection is created (createPeerConnection
attaches the localStream tracks, i.e. the camera), or the screen button is
pressed (toggleScreenShare). -/
inductive MEv where
  | newPeer : MEv
  | toggleShare : MEv
deriving DecidableEq, Repr

/-- One media event together with the signaling messages it sends.  The
toggle path (toggleScreenShare / stopScreenShare, main.js lines 261-292)
contains no sendMessage call whatsoever — substitution goes through
sender.replaceTrack only, never through a re-offer — which the model
records as an empty message list; offer/answer emission happens only in
the negotiation handlers modeled above. -/
def mstepM (s : MediaState) (e : MEv) : MediaState × List Msg :=
  match e with
  | MEv.newPeer => ({ s with pcs := s.pcs ++ [Track.camera] }, [])
  | MEv.toggleShare =>
      match s.sharing with
      | some k =>
          let s1 := { s with pcs := replaceTrack Track.camera (Track.screen k) s.pcs, sharing := none }
          (s1, [])
      | none =>
          let s1 := { s with pcs := replaceTrack (Track.screen s.nextScreen) Track.camera s.pcs, sharing := some s.nextScreen, nextScreen := s.nextScreen + 1 }
          (s1, [])

/-- The state part of a media event. -/
def mstep (s : MediaState) (e : MEv) : MediaState :=
  (mstepM s e).1

/-- Media state at page load: no peers, camera active. -/
def minit : MediaState :=
  { pcs := [], sharing := none, nextScreen := 0 }

/-- Media state reached by a sequence of events from page load. -/
def mrun (evs : List MEv) : MediaState :=
  evs.foldl mstep minit

/-- The currently active outgoing video source. -/
def activeTrack (s : MediaState) : Track :=
  match s.sharing with
  | some k => Track.screen k
  | none => Track.camera

/-- Reachability invariant of the media subsystem: every peer connection's
video sender holds either the camera or the CURRENT screen track (a peer
created mid-share holds the camera until the share stops). -/
def MInv (s : MediaState) : Prop :=
  ∀ t ∈ s.pcs, t = Track.camera ∨ ∃ k, s.sharing = some k ∧ t = Track.screen k

/-- Every media event preserves the sender invariant. -/
theorem minv_step (s : MediaState) (e : MEv) (h : MInv s) : MInv (mstep s e) := by
  cases e with
  | newPeer =>
      intro t ht
      simp only [mstep, mstepM] at ht
      rcases List.mem_append.mp ht with h1 | h1
      · rcases h t h1 with h2 | ⟨k, hk, h2⟩
        · exact Or.inl h2
        · exact Or.inr ⟨k, hk, h2⟩
      · exact Or.inl (List.mem_singleton.mp h1)
  | toggleShare =>
      intro t ht
      cases hs : s.sharing with
      | some k =>
          simp only [mstep, mstepM, hs, replaceTrack, List.mem_map] at ht
          obtain ⟨u, hu, hre⟩ := ht
          rcases h u hu with h2 | ⟨m, hm, h2⟩
          · left
            rw [← hre, h2]
            simp
          · left
            rw [hs] at hm
            cases hm
            rw [← hre, h2]
            simp
      | none =>
          simp only [mstep, mstepM, hs, replaceTrack, List.mem_map] at ht
          obtain ⟨u, hu, hre⟩ := ht
          rcases h u hu with h2 | ⟨m, hm, h2⟩
          · right
            refine ⟨s.nextScreen, by simp [mstep, mstepM, hs], ?_⟩
            rw [← hre, h2]
            simp
          · rw [hs] at hm
            cases hm

/-- The sender invariant holds in every state reachable from page load. -/
theorem minv_run (evs : List MEv) : MInv (mrun evs) := by
  suffices h : ∀ s, MInv s → MInv (List.foldl mstep s evs) from
    h minit (by intro t ht; cases ht)
  induction evs with
  | nil => intro s hs; exact hs
  | cons e t ih =>
      intro s hs
      exact ih (mstep s e) (minv_step s e hs)

/-- In a state satisfying the invariant, pressing the screen button leaves
every peer connection's video sender equal to the new active track. -/
theorem toggle_converges (s : MediaState) (h : MInv s) :
    (mstep s MEv.toggleShare).pcs
      = List.replicate s.pcs.length (activeTrack (mstep s MEv.toggleShare)) := by
  cases hs : s.sharing with
  | some k =>
      simp only [mstep, mstepM, hs, replaceTrack, activeTrack]
      rw [List.eq_replicate_iff]
      constructor
      · simp
      · intro b hb
        simp only [List.mem_map] at hb
        obtain ⟨u, hu, hre⟩ := hb
        rcases h u hu with h2 | ⟨m, hm, h2⟩
        · rw [← hre, h2]; simp
        · rw [hs] at hm
          cases hm
          rw [← hre, h2]; simp
  | none =>
      simp only [mstep, mstepM, hs, replaceTrack, activeTrack]
      rw [List.eq_replicate_iff]
      constructor
      · simp
      · intro b hb
        simp only [List.mem_map] at hb
        obtain ⟨u, hu, hre⟩ := hb
        rcases h u hu with h2 | ⟨m, hm, h2⟩
        · rw [← hre, h2]; simp
        · rw [hs] at hm
          cases hm

/-- mai.js track substitution rewrites every existing video sender to the new
track: the senders present afterwards are exactly (count of peers with a
video sender) copies of it. -/
theorem replaceTrackForAllPeers_all (t : Track) (ps : List (Pid × Option Track)) :
    (replaceTrackForAllPeers t ps).filterMap Prod.snd
      = List.replicate (ps.countP fun p => p.2.isSome) t := by
  induction ps with
  | nil => rfl
  | cons p rest ih =>
      cases hp : p.2 with
      | none =>
          simp [replaceTrackForAllPeers, List.filterMap, List.countP_cons, hp] at ih ⊢
          exact ih
      | some u =>
          simp [replaceTrackForAllPeers, List.filterMap, List.countP_cons, hp,
            List.replicate_succ] at ih ⊢
          exact ih

/-- C5 — After a screen-share toggle in any state the main.js client can
reach from page load, every peer connection's outgoing video sender equals
the new active track (all camera after a stop, all the fresh screen track
after a start; no sender is left on the old source), and the substitution
step emits no signaling message at all (no offer, no answer, hence no
renegotiation); likewise mai.js's whole-roster substitution leaves every
existing video sender holding exactly the new track. -/
theorem c5_track_substitution (evs : List MEv) :
    (mstep (mrun evs) MEv.toggleShare).pcs
      = List.replicate (mrun evs).pcs.length
          (activeTrack (mstep (mrun evs) MEv.toggleShare)) ∧
    (mstepM (mrun evs) MEv.toggleShare).2 = [] ∧
    ∀ (t : Track) (ps : List (Pid × Option Track)),
      (replaceTrackForAllPeers t ps).filterMap Prod.snd
        = List.replicate (ps.countP fun p => p.2.isSome) t := by
  refine ⟨toggle_converges (mrun evs) (minv_run evs), ?_, replaceTrackForAllPeers_all⟩
  cases hs : (mrun evs).sharing <;> simp [mstepM, hs]

/-- Erasing a key makes its lookup fail. -/
theorem alookup_aerase {α : Type} (id : Pid) (l : List (Pid × α)) :
    alookup id (aerase id l) = none := by
  induction l with
  | nil => rfl
  | cons e t ih =>
      unfold aerase
      by_cases h : e.1 = id
      · simp [h, ih]
      · simp [alookup, h, ih]

/-- Removing an id from a plain list makes its membership test fail. -/
theorem hasId_removeAll (id : Pid) (l : List Pid) :
    hasId id (removeAll id l) = false := by
  induction l with
  | nil => rfl
  | cons x t ih =>
      unfold removeAll
      by_cases h : x = id
      · simp [h, ih]
      · simp [hasId, h, ih]

/-- A client with one idle session toward peer 5, used as the C6 witness. -/
def c6client : Client :=
  { selfId := 1, peerConnections := [(5, PC.new)], remoteParticipants := [], videos := [] }

/-- C6 counterexample — main.js handleAnswer, receiving an answer from peer
9 for which no PeerSession exists, produces NO log entry (the source has no
else branch for the missing-connection case): the event is ignored, but
silently, refuting the claim's assertion that every such event is logged.
The state is indeed unchanged. -/
theorem c6_counterexample :
    (handleAnswer Desc.answerD 9 clientA0).logs = [] ∧
    (handleAnswer Desc.answerD 9 clientA0).st = clientA0 := by
  exact ⟨rfl, rfl⟩

/-- C6 (amended) — main.js handleAnswer on any answer that is not expected:
with no session for the sender it does nothing at all (state unchanged, no
message, no candidate, and no log entry); with a session that is not
awaiting an answer the transport call fails, the failure is caught and
logged with the peer id, and the session state is bit-for-bit unchanged.
Both cases return normally (the handler is total), so neither the session
nor the manager crashes. -/
theorem c6_answer_ignored (c : Client) (d : Desc) (id : Pid) :
    (alookup id c.peerConnections = none →
      handleAnswer d id c = { st := c, out := [], applied := [], logs := [] }) ∧
    (∀ pc, alookup id c.peerConnections = some pc → pc.sig ≠ SigState.haveLocalOffer →
      handleAnswer d id c
        = { st := c, out := [], applied := [], logs := [LogEntry.answerErr id] }) := by
  constructor
  · intro h
    simp [handleAnswer, h]
  · intro pc h hsig
    have herr : pc.applyRemoteAnswer d = Except.error PcErr.invalidState := by
      unfold PC.applyRemoteAnswer
      cases hs : pc.sig with
      | haveLocalOffer => exact absurd hs hsig
      | stable => rfl
      | haveRemoteOffer => rfl
      | closedS => rfl
    simp [handleAnswer, h, herr]

/-- C6 witness — the amended theorem applied to concrete inputs: an answer
from unknown peer 9, and an answer from peer 5 whose fresh session is not
awaiting one. -/
theorem c6_answer_ignored_witness :
    handleAnswer Desc.answerD 9 c6client
      = { st := c6client, out := [], applied := [], logs := [] } ∧
    handleAnswer Desc.answerD 5 c6client
      = { st := c6client, out := [], applied := [], logs := [LogEntry.answerErr 5] } :=
  ⟨(c6_answer_ignored c6client Desc.answerD 9).1 rfl,
   (c6_answer_ignored c6client Desc.answerD 5).2 PC.new rfl (by decide)⟩

/- Leave handling (C7). -/

/-- Observable side effects of leave/teardown handling: closing a peer
connection, removing a remote video tile, removing a roster row from the
participants panel (keyed, in main.js, by the roll number). -/
inductive SideEv where
  | closePC : Pid → SideEv
  | removeVideo : Pid → SideEv
  | removeRosterRow : Nat → SideEv
deriving DecidableEq, Repr

/-- main.js handleUserLeft, first statement group (lines 201-204): when a
connection exists for the leaver, close it and delete the map entry. -/
def stepPc (id : Pid) (c : Client) : Client × List SideEv :=
  match alookup id c.peerConnections with
  | some _ => ({ c with peerConnections := aerase id c.peerConnections }, [SideEv.closePC id])
  | none => (c, [])

/-- main.js removeRemoteVideo (lines 379-385): remove the tile if present. -/
def stepVideo (id : Pid) (c : Client) : Client × List SideEv :=
  if hasId id c.videos then ({ c with videos := removeAll id c.videos }, [SideEv.removeVideo id])
  else (c, [])

/-- main.js handleUserLeft, last statement group (lines 207-214): when the
leaver is in remoteParticipants, remove its roster row (addressed by roll
number) and delete the map entry. -/
def stepRoster (id : Pid) (c : Client) : Client × List SideEv :=
  match alookup id c.remoteParticipants with
  | some info => ({ c with remoteParticipants := aerase id c.remoteParticipants }, [SideEv.removeRosterRow info.roll])
  | none => (c, [])

/-- main.js handleUserLeft (lines 200-215): the three statement groups in
source order, with their side effects concatenated. -/
def handleUserLeft (id : Pid) (c : Client) : Client × List SideEv :=
  let p1 := stepPc id c
  let p2 := stepVideo id p1.1
  let p3 := stepRoster id p2.1
  (p3.1, p1.2 ++ p2.2 ++ p3.2)

/-- The connection-removal step: afterwards the leaver has no connection;
the other fields are untouched; and it is a no-op on an absent id. -/
theorem stepPc_spec (id : Pid) (c : Client) :
    alookup id (stepPc id c).1.peerConnections = none ∧
    (stepPc id c).1.videos = c.videos ∧
    (stepPc id c).1.remoteParticipants = c.remoteParticipants ∧
    (alookup id c.peerConnections = none → stepPc id c = (c, [])) := by
  unfold stepPc
  cases h : alookup id c.peerConnections with
  | some pc => simp [h, alookup_aerase]
  | none => simp [h]

/-- The video-removal step: afterwards the leaver has no tile; the other
fields are untouched; and it is a no-op on an absent id. -/
theorem stepVideo_spec (id : Pid) (c : Client) :
    hasId id (stepVideo id c).1.videos = false ∧
    (stepVideo id c).1.peerConnections = c.peerConnections ∧
    (stepVideo id c).1.remoteParticipants = c.remoteParticipants ∧
    (hasId id c.videos = false → stepVideo id c = (c, [])) := by
  unfold stepVideo
  cases h : hasId id c.videos with
  | true => simp [h, hasId_removeAll]
  | false => simp [h]

/-- The roster-removal step: afterwards the leaver has no roster entry; the
other fields are untouched; and it is a no-op on an absent id. -/
theorem stepRoster_spec (id : Pid) (c : Client) :
    alookup id (stepRoster id c).1.remoteParticipants = none ∧
    (stepRoster id c).1.peerConnections = c.peerConnections ∧
    (stepRoster id c).1.videos = c.videos ∧
    (alookup id c.remoteParticipants = none → stepRoster id c = (c, [])) := by
  unfold stepRoster
  cases h : alookup id c.remoteParticipants with
  | some info => simp [h, alookup_aerase]
  | none => simp [h]

/-- After handleUserLeft, the departed id is gone from all three stores. -/
theorem handleUserLeft_post (id : Pid) (c : Client) :
    alookup id (handleUserLeft id c).1.peerConnections = none ∧
    hasId id (handleUserLeft id c).1.videos = false ∧
    alookup id (handleUserLeft id c).1.remoteParticipants = none := by
  show alookup id (stepRoster id (stepVideo id (stepPc id c).1).1).1.peerConnections = none ∧
    hasId id (stepRoster id (stepVideo id (stepPc id c).1).1).1.videos = false ∧
    alookup id (stepRoster id (stepVideo id (stepPc id c).1).1).1.remoteParticipants = none
  refine ⟨?_, ?_, (stepRoster_spec id _).1⟩
  · rw [(stepRoster_spec id _).2.1, (stepVideo_spec id _).2.1]
    exact (stepPc_spec id c).1
  · rw [(stepRoster_spec id _).2.2.1]
    exact (stepVideo_spec id _).1

/-- A second handleUserLeft for the same id is the identity with no events. -/
theorem handleUserLeft_idem (id : Pid) (c : Client) :
    handleUserLeft id (handleUserLeft id c).1 = ((handleUserLeft id c).1, []) := by
  obtain ⟨h1, h2, h3⟩ := handleUserLeft_post id c
  have e1 := (stepPc_spec id (handleUserLeft id c).1).2.2.2 h1
  have e2 := (stepVideo_spec id (handleUserLeft id c).1).2.2.2 h2
  have e3 := (stepRoster_spec id (handleUserLeft id c).1).2.2.2 h3
  show ((stepRoster id (stepVideo id (stepPc id (handleUserLeft id c).1).1).1).1,
    (stepPc id (handleUserLeft id c).1).2 ++ (stepVideo id (stepPc id (handleUserLeft id c).1).1).2
      ++ (stepRoster id (stepVideo id (stepPc id (handleUserLeft id c).1).1).1).2)
    = ((handleUserLeft id c).1, [])
  simp only [e1, e2, e3]
  rfl

/- mai.js leave handling. -/

/-- State of the mai.js client relevant to leave handling: the peers map,
the participants map, the remote video tiles, and the roster rows present
in the participants panel.  Roster rows are created keyed by roll number
(addParticipantToList) while updateParticipantsListAfterLeave looks one up
by participant id, so the row list holds whatever DOM ids exist. -/
structure MaiState where
  peers : List (Pid × PC)
  participants : List (Pid × Info)
  videos : List Pid
  rosterRows : List Pid
deriving DecidableEq, Repr

/-- mai.js handleUserLeft, peers group (lines 171-174): close and delete. -/
def maiStepPeer (id : Pid) (s : MaiState) : MaiState × List SideEv :=
  match alookup id s.peers with
  | some _ => ({ s with peers := aerase id s.peers }, [SideEv.closePC id])
  | none => (s, [])

/-- mai.js handleUserLeft, participants group (lines 175-177): delete the
entry; no DOM effect here. -/
def maiStepPart (id : Pid) (s : MaiState) : MaiState × List SideEv :=
  match alookup id s.participants with
  | some _ => ({ s with participants := aerase id s.participants }, [])
  | none => (s, [])

/-- mai.js removeVideoElement (lines 272-278): remove the tile if present. -/
def maiStepVideo (id : Pid) (s : MaiState) : MaiState × List SideEv :=
  if hasId id s.videos then ({ s with videos := removeAll id s.videos }, [SideEv.removeVideo id])
  else (s, [])

/-- mai.js updateParticipantsListAfterLeave (lines 301-304): remove the row
whose DOM id matches the participant id, if present. -/
def maiStepRow (id : Pid) (s : MaiState) : MaiState × List SideEv :=
  if hasId id s.rosterRows then ({ s with rosterRows := removeAll id s.rosterRows }, [SideEv.removeRosterRow id])
  else (s, [])

/-- mai.js handleUserLeft (lines 167-181): the four statement groups in
source order. -/
def maiHandleUserLeft (id : Pid) (s : MaiState) : MaiState × List SideEv :=
  let p1 := maiStepPeer id s
  let p2 := maiStepPart id p1.1
  let p3 := maiStepVideo id p2.1
  let p4 := maiStepRow id p3.1
  (p4.1, p1.2 ++ p2.2 ++ p3.2 ++ p4.2)

/-- mai peers step: removal is complete, other fields untouched, no-op when
absent. -/
theorem maiStepPeer_spec (id : Pid) (s : MaiState) :
    alookup id (maiStepPeer id s).1.peers = none ∧
    (maiStepPeer id s).1.participants = s.participants ∧
    (maiStepPeer id s).1.videos = s.videos ∧
    (maiStepPeer id s).1.rosterRows = s.rosterRows ∧
    (alookup id s.peers = none → maiStepPeer id s = (s, [])) := by
  unfold maiStepPeer
  cases h : alookup id s.peers with
  | some pc => simp [h, alookup_aerase]
  | none => simp [h]

/-- mai participants step: removal is complete, other fields untouched,
no-op when absent. -/
theorem maiStepPart_spec (id : Pid) (s : MaiState) :
    alookup id (maiStepPart id s).1.participants = none ∧
    (maiStepPart id s).1.peers = s.peers ∧
    (maiStepPart id s).1.videos = s.videos ∧
    (maiStepPart id s).1.rosterRows = s.rosterRows ∧
    (alookup id s.participants = none → maiStepPart id s = (s, [])) := by
  unfold maiStepPart
  cases h : alookup id s.participants with
  | some info => simp [h, alookup_aerase]
  | none => simp [h]

/-- mai video step: removal is complete, other fields untouched, no-op when
absent. -/
theorem maiStepVideo_spec (id : Pid) (s : MaiState) :
    hasId id (maiStepVideo id s).1.videos = false ∧
    (maiStepVideo id s).1.peers = s.peers ∧
    (maiStepVideo id s).1.participants = s.participants ∧
    (maiStepVideo id s).1.rosterRows = s.rosterRows ∧
    (hasId id s.videos = false → maiStepVideo id s = (s, [])) := by
  unfold maiStepVideo
  cases h : hasId id s.videos with
  | true => simp [h, hasId_removeAll]
  | false => simp [h]

/-- mai roster-row step: removal is complete, other fields untouched, no-op
when absent. -/
theorem maiStepRow_spec (id : Pid) (s : MaiState) :
    hasId id (maiStepRow id s).1.rosterRows = false ∧
    (maiStepRow id s).1.peers = s.peers ∧
    (maiStepRow id s).1.participants = s.participants ∧
    (maiStepRow id s).1.videos = s.videos ∧
    (hasId id s.rosterRows = false → maiStepRow id s = (s, [])) := by
  unfold maiStepRow
  cases h : hasId id s.rosterRows with
  | true => simp [h, hasId_removeAll]
  | false => simp [h]

/-- After mai.js handleUserLeft the departed id is gone from all stores. -/
theorem maiHandleUserLeft_post (id : Pid) (s : MaiState) :
    alookup id (maiHandleUserLeft id s).1.peers = none ∧
    alookup id (maiHandleUserLeft id s).1.participants = none ∧
    hasId id (maiHandleUserLeft id s).1.videos = false ∧
    hasId id (maiHandleUserLeft id s).1.rosterRows = false := by
  show alookup id (maiStepRow id (maiStepVideo id (maiStepPart id (maiStepPeer id s).1).1).1).1.peers = none ∧
    alookup id (maiStepRow id (maiStepVideo id (maiStepPart id (maiStepPeer id s).1).1).1).1.participants = none ∧
    hasId id (maiStepRow id (maiStepVideo id (maiStepPart id (maiStepPeer id s).1).1).1).1.videos = false ∧
    hasId id (maiStepRow id (maiStepVideo id (maiStepPart id (maiStepPeer id s).1).1).1).1.rosterRows = false
  refine ⟨?_, ?_, ?_, (maiStepRow_spec id _).1⟩
  · rw [(maiStepRow_spec id _).2.1, (maiStepVideo_spec id _).2.1, (maiStepPart_spec id _).2.1]
    exact (maiStepPeer_spec id s).1
  · rw [(maiStepRow_spec id _).2.2.1, (maiStepVideo_spec id _).2.2.1]
    exact (maiStepPart_spec id _).1
  · rw [(maiStepRow_spec id _).2.2.2.1]
    exact (maiStepVideo_spec id _).1

/-- A second mai.js handleUserLeft for the same id is the identity with no
events. -/
theorem maiHandleUserLeft_idem (id : Pid) (s : MaiState) :
    maiHandleUserLeft id (maiHandleUserLeft id s).1 = ((maiHandleUserLeft id s).1, []) := by
  obtain ⟨h1, h2, h3, h4⟩ := maiHandleUserLeft_post id s
  have e1 := (maiStepPeer_spec id (maiHandleUserLeft id s).1).2.2.2.2 h1
  have e2 := (maiStepPart_spec id (maiHandleUserLeft id s).1).2.2.2.2 h2
  have e3 := (maiStepVideo_spec id (maiHandleUserLeft id s).1).2.2.2.2 h3
  have e4 := (maiStepRow_spec id (maiHandleUserLeft id s).1).2.2.2.2 h4
  show ((maiStepRow id (maiStepVideo id (maiStepPart id (maiStepPeer id (maiHandleUserLeft id s).1).1).1).1).1,
    (maiStepPeer id (maiHandleUserLeft id s).1).2
      ++ (maiStepPart id (maiStepPeer id (maiHandleUserLeft id s).1).1).2
      ++ (maiStepVideo id (maiStepPart id (maiStepPeer id (maiHandleUserLeft id s).1).1).1).2
      ++ (maiStepRow id (maiStepVideo id (maiStepPart id (maiStepPeer id (maiHandleUserLeft id s).1).1).1).1).2)
    = ((maiHandleUserLeft id s).1, [])
  simp only [e1, e2, e3, e4]
  rfl

/-- C7 — Leave handling is idempotent in both variants: a second
handleUserLeft for the same id changes nothing and emits no side effect
(no second close, no second DOM removal); a leave for an id that is in no
store is a complete no-op rather than an error; and closing an already
closed connection is harmless (close is idempotent). -/
theorem c7_user_left_idempotent (id : Pid) (c : Client) (s : MaiState) (pc : PC) :
    handleUserLeft id (handleUserLeft id c).1 = ((handleUserLeft id c).1, []) ∧
    maiHandleUserLeft id (maiHandleUserLeft id s).1 = ((maiHandleUserLeft id s).1, []) ∧
    PC.closePc (PC.closePc pc) = PC.closePc pc ∧
    (alookup id c.peerConnections = none → hasId id c.videos = false →
      alookup id c.remoteParticipants = none → handleUserLeft id c = (c, [])) := by
  refine ⟨handleUserLeft_idem id c, maiHandleUserLeft_idem id s, rfl, ?_⟩
  intro h1 h2 h3
  have e1 := (stepPc_spec id c).2.2.2 h1
  have e2 := (stepVideo_spec id c).2.2.2 h2
  have e3 := (stepRoster_spec id c).2.2.2 h3
  show ((stepRoster id (stepVideo id (stepPc id c).1).1).1,
    (stepPc id c).2 ++ (stepVideo id (stepPc id c).1).2
      ++ (stepRoster id (stepVideo id (stepPc id c).1).1).2)
    = (c, [])
  simp only [e1, e2, e3]
  rfl

/-- C7 witness — the idempotence theorem applied to concrete data: a room
with peer 5 present everywhere, from which 5 leaves twice, and a leave for
the never-present id 3. -/
theorem c7_user_left_idempotent_witness :
    handleUserLeft 5 (handleUserLeft 5 c6client).1 = ((handleUserLeft 5 c6client).1, []) ∧
    handleUserLeft 3 clientA0 = (clientA0, []) :=
  ⟨(c7_user_left_idempotent 5 c6client
      { peers := [], participants := [], videos := [], rosterRows := [] } PC.new).1,
   (c7_user_left_idempotent 3 clientA0
      { peers := [], participants := [], videos := [], rosterRows := [] } PC.new).2.2.2
      rfl rfl rfl⟩

/- Websocket-close handling (C8). -/

/-- Whole-application view for teardown claims: each peer connection with an
open flag, each locally captured track with a live flag, the remote video
tiles, whether the user has been notified (alert), and whether the page is
still the meeting page (window.location redirect resets it). -/
structure App where
  peers : List (Pid × Bool)
  localTracks : List Bool
  videos : List Pid
  alerted : Bool
  atMeetingPage : Bool
deriving DecidableEq, Repr

/-- main.js ws.onclose (lines 59-63): alert the user and navigate back to
the index page.  The handler contains no pc.close() and no track.stop()
call, so connections and captured tracks are untouched by the code. -/
def mainWsOnClose (a : App) : App :=
  { a with alerted := true, atMeetingPage := false }

/-- mai.js ws.onclose (mai.js lines 60-69): close every peer connection and
remove every remote video element.  It stops no local track, shows no
notification, and performs no navigation. -/
def maiWsOnClose (a : App) : App :=
  { a with peers := a.peers.map fun p => (p.1, false), videos := [] }

/-- A meeting in progress: one open connection to peer 5, one live local
track, one remote tile. -/
def app1 : App :=
  { peers := [(5, true)], localTracks := [true], videos := [5], alerted := false,
    atMeetingPage := true }

/-- C8 counterexample — after main.js's websocket-close handler runs on a
meeting with one open peer connection and one live captured track, the
connection is still open and the track still live: the handler closes no
PeerSession and stops no local media, refuting the claim as stated. -/
theorem c8_counterexample :
    (mainWsOnClose app1).peers = [(5, true)] ∧
    (mainWsOnClose app1).localTracks = [true] := by
  exact ⟨rfl, rfl⟩

/-- Closing every peer sets every open flag to false, keeping the ids. -/
theorem close_all_peers (l : List (Pid × Bool)) :
    (l.map fun p => (p.1, false)).map Prod.snd = List.replicate l.length false ∧
    (l.map fun p => (p.1, false)).map Prod.fst = l.map Prod.fst := by
  induction l with
  | nil => exact ⟨rfl, rfl⟩
  | cons e t ih => simp [List.replicate_succ, ih.1, ih.2]

/-- C8 (amended) — On websocket close, main.js only notifies the user and
navigates back to the pre-room page, leaving every peer connection and
every captured local track exactly as they were; mai.js closes every peer
connection and removes every remote tile, but stops no local track,
notifies nobody, and stays on the meeting page.  Neither variant does all
of what the claim requires. -/
theorem c8_onclose_behavior (a : App) :
    (mainWsOnClose a).peers = a.peers ∧
    (mainWsOnClose a).localTracks = a.localTracks ∧
    (mainWsOnClose a).alerted = true ∧
    (mainWsOnClose a).atMeetingPage = false ∧
    (maiWsOnClose a).peers.map Prod.snd = List.replicate a.peers.length false ∧
    (maiWsOnClose a).peers.map Prod.fst = a.peers.map Prod.fst ∧
    (maiWsOnClose a).videos = [] ∧
    (maiWsOnClose a).localTracks = a.localTracks ∧
    (maiWsOnClose a).alerted = a.alerted ∧
    (maiWsOnClose a).atMeetingPage = a.atMeetingPage := by
  refine ⟨rfl, rfl, rfl, rfl, (close_all_peers a.peers).1, (close_all_peers a.peers).2,
    rfl, rfl, rfl, rfl⟩

/- Self-join handling (C9). -/

/-- Upserting a key makes its lookup return the new value. -/
theorem alookup_upsert {α : Type} (id : Pid) (v : α) (l : List (Pid × α)) :
    alookup id (upsert id v l) = some v := by
  induction l with
  | nil => simp [upsert, alookup]
  | cons e t ih =>
      unfold upsert
      by_cases h : e.1 = id
      · simp [h, alookup]
      · simp [alookup, h, ih]

/-- Negotiation state of the mai.js client: the peers map and the
participants map.  mai.js never records its own participant id (it handles
no connected message), so there is no self field. -/
structure MaiNeg where
  peers : List (Pid × PC)
  participants : List (Pid × Info)
deriving DecidableEq, Repr

/-- mai.js createPeerConnection (mai.js lines 84-106): unconditionally
constructs a fresh connection, attaches local tracks, and stores it under
the id, overwriting any existing entry — there is no existence guard in
this variant. -/
def maiCreatePeerConnection (id : Pid) (s : MaiNeg) : MaiNeg × PC :=
  ({ s with peers := upsert id PC.new s.peers }, PC.new)

/-- mai.js createOffer (mai.js lines 120-129): create a connection, produce
and set a local offer, send it; failures are caught and leave the fresh
connection stored. -/
def maiCreateOffer (id : Pid) (s : MaiNeg) : MaiNeg × List Msg :=
  let p := maiCreatePeerConnection id s
  match p.2.makeOffer with
  | Except.ok r => ({ p.1 with peers := upsert id r.1 p.1.peers }, [Msg.offer id r.2])
  | Except.error _ => (p.1, [])

/-- mai.js handleUserJoined (mai.js lines 108-118): record the participant
and immediately create an offer to the joiner.  There is no check of the
joining id against self — the variant cannot even express one, since it
never stores its own id.  (The participant-list rendering is display
only.) -/
def maiHandleUserJoined (id : Pid) (info : Info) (s : MaiNeg) : MaiNeg × List Msg :=
  maiCreateOffer id { s with participants := upsert id info s.participants }

/-- The mai.js client state at page load. -/
def maiNeg0 : MaiNeg := { peers := [], participants := [] }

/-- C9 counterexample — mai.js handleUserJoined, receiving the join event
that announces the local participant itself (the relay broadcasts
user-joined to all, including the joiner: that is exactly why main.js
checks the id against ws.participantId), creates a PeerSession for the
local participant's own id and originates an offer toward it, refuting the
claim for this variant. -/
theorem c9_counterexample :
    (maiHandleUserJoined 1 infoA maiNeg0).2 = [Msg.offer 1 Desc.offerD] ∧
    alookup 1 (maiHandleUserJoined 1 infoA maiNeg0).1.peers
      = some { sig := SigState.haveLocalOffer, localDesc := some Desc.offerD,
               remoteDesc := none } := by
  exact ⟨rfl, rfl⟩

/-- C9 (amended) — main.js ignores a join event whose id equals self
completely (no roster entry, no session, no offer, nothing logged), while
mai.js performs no self check at all: every join event, a self-join
included, records the participant, stores a fresh PeerSession under the
joining id, and emits an offer to that id. -/
theorem c9_self_join (c : Client) (id : Pid) (info : Info) (s : MaiNeg) :
    (id = c.selfId →
      handleUserJoined id info c = { st := c, out := [], applied := [], logs := [] }) ∧
    (maiHandleUserJoined id info s).2 = [Msg.offer id Desc.offerD] ∧
    alookup id (maiHandleUserJoined id info s).1.peers ≠ none := by
  refine ⟨?_, rfl, ?_⟩
  · intro h
    simp [handleUserJoined, h]
  · show alookup id (upsert id _ (upsert id PC.new _)) ≠ none
    rw [alookup_upsert]
    simp

/-- C9 witness — the amended theorem applied at client 1 receiving its own
join event. -/
theorem c9_self_join_witness :
    handleUserJoined 1 infoA clientA0
      = { st := clientA0, out := [], applied := [], logs := [] } :=
  (c9_self_join clientA0 1 infoA maiNeg0).1 rfl

/- Uniqueness of the per-peer connection (C10). -/

/-- Updating a value in place preserves the key list. -/
theorem aset_keys {α : Type} (id : Pid) (v : α) (l : List (Pid × α)) :
    (aset id v l).map Prod.fst = l.map Prod.fst := by
  induction l with
  | nil => rfl
  | cons e t ih =>
      unfold aset at ih ⊢
      by_cases h : e.1 = id
      · simp [h, ih]
      · simp [h, ih]

/-- A key whose lookup fails is absent from the key list. -/
theorem alookup_none_notMem {α : Type} (id : Pid) (l : List (Pid × α))
    (h : alookup id l = none) : id ∉ l.map Prod.fst := by
  induction l with
  | nil => simp
  | cons e t ih =>
      unfold alookup at h
      by_cases he : e.1 = id
      · simp [he] at h
      · simp [he] at h
        intro hmem
        rw [List.map_cons] at hmem
        rcases List.mem_cons.mp hmem with h1 | h1
        · exact he h1.symm
        · exact ih h h1

/-- C10 — main.js createPeerConnection (and the identical p000 version) is
idempotent on known ids: for an id that already has a connection it
returns the state unchanged and hands back that very connection, creating
nothing; for a fresh id it appends exactly one new connection; a repeated
createOffer for, or an incoming offer from, a known peer leaves the key
set of the connection table unchanged (the existing connection is reused,
never replaced); and the table's keys stay duplicate-free through
connection creation. -/
theorem c10_unique_connection (c : Client) (id : Pid) (pc : PC) :
    (alookup id c.peerConnections = some pc → createPeerConnection id c = (c, pc)) ∧
    (alookup id c.peerConnections = none →
      (createPeerConnection id c).1.peerConnections = c.peerConnections ++ [(id, PC.new)] ∧
      (createPeerConnection id c).2 = PC.new) ∧
    (alookup id c.peerConnections = some pc →
      (mainCreateOffer id c).st.peerConnections.map Prod.fst
        = c.peerConnections.map Prod.fst ∧
      (handleOffer Desc.offerD id c).st.peerConnections.map Prod.fst
        = c.peerConnections.map Prod.fst) ∧
    ((c.peerConnections.map Prod.fst).Nodup →
      ((createPeerConnection id c).1.peerConnections.map Prod.fst).Nodup) := by
  refine ⟨?_, ?_, ?_, ?_⟩
  · intro h
    simp [createPeerConnection, h]
  · intro h
    simp [createPeerConnection, h]
  · intro h
    have hc : createPeerConnection id c = (c, pc) := by simp [createPeerConnection, h]
    constructor
    · unfold mainCreateOffer
      rw [hc]
      cases hm : pc.makeOffer with
      | ok r => simp [hm, aset_keys]
      | error e => simp [hm]
    · unfold handleOffer
      rw [hc]
      cases ho : pc.applyRemoteOffer Desc.offerD with
      | error e => simp [ho]
      | ok pc1 =>
          cases ha : pc1.makeAnswer with
          | ok r => simp [ho, ha, aset_keys]
          | error e => simp [ho, ha, aset_keys]
  · intro hnd
    cases h : alookup id c.peerConnections with
    | some pc1 => simp [createPeerConnection, h, hnd]
    | none =>
        have hmem := alookup_none_notMem id c.peerConnections h
        simp [createPeerConnection, h, List.nodup_append, hnd, hmem]

/-- C10 witness — the uniqueness theorem applied to a client with one
connection for peer 5: a second createPeerConnection for 5 returns the
state unchanged, a createPeerConnection for fresh 9 appends one entry, a
repeated createOffer for and a received offer from 5 preserve the key set,
and the keys stay duplicate-free. -/
theorem c10_unique_connection_witness :
    createPeerConnection 5 c6client = (c6client, PC.new) ∧
    (createPeerConnection 9 c6client).1.peerConnections
      = c6client.peerConnections ++ [(9, PC.new)] ∧
    (mainCreateOffer 5 c6client).st.peerConnections.map Prod.fst
      = c6client.peerConnections.map Prod.fst ∧
    (handleOffer Desc.offerD 5 c6client).st.peerConnections.map Prod.fst
      = c6client.peerConnections.map Prod.fst ∧
    ((createPeerConnection 5 c6client).1.peerConnections.map Prod.fst).Nodup :=
  ⟨(c10_unique_connection c6client 5 PC.new).1 rfl,
   ((c10_unique_connection c6client 9 PC.new).2.1 rfl).1,
   ((c10_unique_connection c6client 5 PC.new).2.2.1 rfl).1,
   ((c10_unique_connection c6client 5 PC.new).2.2.1 rfl).2,
   (c10_unique_connection c6client 5 PC.new).2.2.2 (by decide)⟩

end RTC
